import Mathlib

/-!
Shallow embedding of `germanvocablist.py` (final version of the German
vocabulary CLI tool): the word-record data model, the categorized workbook
(sheets of (word, definition) rows), the duplicate checker, the sort/color
routine, the add operation, and the two scraping result parsers
(`get_word_data`, `get_verb_conjugations`).

Python strings are modelled as Lean `String`s; `str.lower`, `str.capitalize`,
`str.strip` and `s.split(" ", 1)` are re-implemented on the underlying
character lists.  Python `dict`s (insertion ordered) are association lists
with replace-on-existing-key insertion.  `None` vs a string value is
`Option String`; Python truthiness of an optional string (`None` and `""`
falsy) is `optTruthy`.  Network fetches are modelled by passing the fetched
page content (status code plus extracted tag data) as an explicit argument.
-/

/-! ### Python string primitives -/

/-- Python `str.lower()` (per-character lowercasing). -/
def pyLower (s : String) : String := ⟨s.data.map Char.toLower⟩

/-- Python `str.capitalize()`: first character uppercased, the rest lowercased. -/
def pyCapitalize (s : String) : String :=
  match s.data with
  | [] => ""
  | c :: rest => ⟨Char.toUpper c :: rest.map Char.toLower⟩

/-- Strip leading and trailing whitespace from a character list (both ends). -/
def stripChars (l : List Char) : List Char :=
  ((l.dropWhile Char.isWhitespace).reverse.dropWhile Char.isWhitespace).reverse

/-- Python `str.strip()` with no arguments. -/
def pyStrip (s : String) : String := ⟨stripChars s.data⟩

/-- Python `str(x)` of an optional string, as used by an f-string:
`None` renders as the literal text `None`. -/
def pyStr : Option String → String
  | none => "None"
  | some s => s

/-- Python truthiness of an optional string: `None` and `""` are falsy. -/
def optTruthy : Option String → Bool
  | none => false
  | some s => !s.isEmpty

/-- Does `pat` occur at the start of `l`? -/
def listStartsWith : List Char → List Char → Bool
  | [], _ => true
  | _ :: _, [] => false
  | a :: as, b :: bs => a == b && listStartsWith as bs

/-- Does `pat` occur as a contiguous run anywhere in the second list?
Models Python `pat in s` on strings. -/
def listHasSub (pat : List Char) : List Char → Bool
  | [] => pat.isEmpty
  | a :: t => listStartsWith pat (a :: t) || listHasSub pat (a :: t).tail

/-- Python `sub in s` (substring containment). -/
def hasSub (s sub : String) : Bool := listHasSub sub.data s.data

/-- Python `dict.fromkeys` based de-duplication: keep the first occurrence
of each element, preserving order.  The `seen` accumulator keeps the
recursion structural. -/
def dedupFirstAux {α : Type} [DecidableEq α] (seen : List α) : List α → List α
  | [] => []
  | x :: xs => if x ∈ seen then dedupFirstAux seen xs else x :: dedupFirstAux (x :: seen) xs

/-- `list(dict.fromkeys(l))`: order-preserving de-duplication. -/
def dedupFirst {α : Type} [DecidableEq α] (l : List α) : List α := dedupFirstAux [] l

/-- Lexicographic comparison of character lists by code point; this is how
Python compares the sort keys (lowered strings). -/
def lexLe : List Char → List Char → Bool
  | [], _ => true
  | _ :: _, [] => false
  | a :: as, b :: bs => if a < b then true else if b < a then false else lexLe as bs

/-! ### Constants of the script -/

/-- `ARTICLE_CONV`: dictionary from PONS genus tags to German articles,
accessed with `dict.get` (so an unknown key yields `none`, i.e. Python
`None`). -/
def ARTICLE_CONV (a : String) : Option String :=
  if a = "m" then some "der"
  else if a = "f" then some "die"
  else if a = "nt" then some "das"
  else if a = "" then some ""
  else none

/-- `ARTICLE_COLORS`: dictionary from leading-token keys to fill colors. -/
def ARTICLE_COLORS (k : String) : Option String :=
  if k = "der" then some "0000FF"
  else if k = "die" then some "FF0000"
  else if k = "das" then some "008000"
  else if k = "" then some "8B4513"
  else if k = "verb" then some "800080"
  else none

/-! ### Workbook data model

A sheet row: the word cell, the definition cell, any further cells
(the six conjugation columns of a verb row, possibly `None`), and the
fill color last applied to the word cell (`none` before any coloring). -/

structure Row where
  word : String
  defn : String
  extraCells : List (Option String)
  color : Option String
deriving DecidableEq, Repr

/-- A worksheet: name, the fixed header row at position 0, and the data rows. -/
structure Sheet where
  name : String
  header : List String
  rows : List Row
deriving DecidableEq, Repr

/-- The workbook: the ordered collection of worksheets. -/
abbrev Workbook := List Sheet

/-- `sheet_name in wb.sheetnames`. -/
def hasSheet (n : String) (wb : Workbook) : Bool := wb.any (fun s => s.name == n)

/-- `wb[n]` as a total lookup (first sheet with the given name). -/
def getSheet (n : String) (wb : Workbook) : Option Sheet :=
  wb.find? (fun s => s.name == n)

/-- Data rows of the sheet named `n` (empty when absent). -/
def getRows (n : String) (wb : Workbook) : List Row :=
  ((getSheet n wb).map Sheet.rows).getD []

/-- Apply `f` to the sheet(s) named `n`, leaving the others unchanged. -/
def updateSheet (n : String) (f : Sheet → Sheet) (wb : Workbook) : Workbook :=
  wb.map (fun s => if s.name = n then f s else s)

/-- The workbook created by `create_or_load_excel` on first run: a General
sheet and one sheet per article, each holding just the header. -/
def freshWorkbook : Workbook :=
  [⟨"General", ["Word", "Definition"], []⟩,
   ⟨"der", ["Word", "Definition"], []⟩,
   ⟨"die", ["Word", "Definition"], []⟩,
   ⟨"das", ["Word", "Definition"], []⟩,
   ⟨"No Article", ["Word", "Definition"], []⟩]

/-! ### check_duplicate -/

/-- Does a stored row match the candidate word and definition,
case-insensitively on both fields? -/
def rowMatches (word definition : String) (r : Row) : Bool :=
  pyLower r.word == pyLower word && pyLower r.defn == pyLower definition

/-- `check_duplicate`: scan every sheet's data rows in order and return the
first (word, definition) pair matching case-insensitively, else `none`.
The Python function returns the tuple `(None, None)` in the miss case,
modelled as `none`. -/
def check_duplicate (word definition : String) (wb : Workbook) :
    Option (String × String) :=
  wb.findSome? (fun s =>
    (s.rows.find? (rowMatches word definition)).map (fun r => (r.word, r.defn)))

/-! ### sort_and_color_sheet and the two append helpers -/

/-- The sort key of a stored word: `x.split(" ", 1)[1].lower()` when the word
contains a space, else `x.lower()`, compared by code points. -/
def sortKeyChars (w : String) : List Char :=
  if w.data.contains ' ' then
    ((w.data.dropWhile (fun c => !(c == ' '))).tail).map Char.toLower
  else
    w.data.map Char.toLower

/-- Row ordering used by the per-sheet sort. -/
def rowLe (a b : Row) : Prop := lexLe (sortKeyChars a.word) (sortKeyChars b.word) = true

instance : DecidableRel rowLe := fun _ _ => instDecidableEqBool _ _

/-- `value.split(" ", 1)[0] if " " in value else ""`: the leading token used
to pick the word cell's color. -/
def checkedArticle (w : String) : String :=
  if w.data.contains ' ' then ⟨w.data.takeWhile (fun c => !(c == ' '))⟩ else ""

/-- The fill color chosen for a word cell:
`ARTICLE_COLORS.get(checked_article, ARTICLE_COLORS[""])`. -/
def colorFor (w : String) : String := (ARTICLE_COLORS (checkedArticle w)).getD "8B4513"

/-- Re-color a row's word cell according to its leading token. -/
def colorRow (r : Row) : Row := { r with color := some (colorFor r.word) }

/-- `sort_and_color_sheet`: stable-sort the data rows by the word ignoring a
leading article token (case-insensitively) and re-color every word cell;
the header row at position 0 is untouched. -/
def sort_and_color_sheet (s : Sheet) : Sheet :=
  { s with rows := (List.insertionSort rowLe s.rows).map colorRow }

/-- `add_word_to_sheet`: append a two-column row, then sort and color. -/
def add_word_to_sheet (s : Sheet) (full_word definition : String) : Sheet :=
  sort_and_color_sheet { s with rows := s.rows ++ [⟨full_word, definition, [], none⟩] }

/-- Ordered-dictionary lookup (`dict.get`, `none` when absent). -/
def dictGet (d : List (String × String)) (k : String) : Option String :=
  (d.find? (fun kv => kv.1 == k)).map Prod.snd

/-- Ordered-dictionary insertion: replace in place when the key exists,
else append (Python `d[k] = v`). -/
def dictInsert (d : List (String × String)) (k v : String) : List (String × String) :=
  if d.any (fun kv => kv.1 == k) then
    d.map (fun kv => if kv.1 == k then (k, v) else kv)
  else d ++ [(k, v)]

/-- Color every row of the verbs sheet purple (the verb color). -/
def verbColorRow (r : Row) : Row := { r with color := some "800080" }

/-- `add_verb_to_sheet`: append the eight-column verb row (missing persons
become empty cells) and re-color all word cells purple.  Note: no sort. -/
def verbRow (verb definition : String) (conjugations : List (String × String)) : Row :=
  ⟨verb, definition,
    [dictGet conjugations "ich", dictGet conjugations "du",
     dictGet conjugations "er/sie/es", dictGet conjugations "wir",
     dictGet conjugations "ihr", dictGet conjugations "sie/Sie"], none⟩

/-- `add_verb_to_sheet` (continued): append and recolor. -/
def add_verb_to_sheet (s : Sheet) (verb definition : String)
    (conjugations : List (String × String)) : Sheet :=
  { s with rows := (s.rows ++ [verbRow verb definition conjugations]).map verbColorRow }

/-! ### Lazily-created sheets -/

/-- `f"A1.1 - L{lesson}"`. -/
def lesson_sheet_name (lesson : Int) : String := "A1.1 - L" ++ toString lesson

/-- `create_lesson_sheet`: create the lesson sheet (header only) when absent. -/
def create_lesson_sheet (wb : Workbook) (lesson : Int) : Workbook :=
  if hasSheet (lesson_sheet_name lesson) wb then wb
  else wb ++ [⟨lesson_sheet_name lesson, ["Word", "Definition"], []⟩]

/-- `create_verbs_sheet`: create the eight-column Verbs sheet when absent. -/
def create_verbs_sheet (wb : Workbook) : Workbook :=
  if hasSheet "Verbs" wb then wb
  else wb ++ [⟨"Verbs",
    ["Verb", "Definition", "ich", "du", "er/sie/es", "wir", "ihr", "sie/Sie"], []⟩]

/-! ### add_word_to_excel -/

/-- The case-adjusted word: capitalized when the converted article is truthy
(a real article), otherwise lowercased. -/
def adjusted_word (article word : String) : String :=
  if optTruthy (ARTICLE_CONV article) then pyCapitalize word else pyLower word

/-- `full_word = f"{real_article} {word}".strip()` where
`real_article = ARTICLE_CONV.get(article)`. -/
def build_full_word (article word : String) : String :=
  pyStrip (pyStr (ARTICLE_CONV article) ++ " " ++ adjusted_word article word)

/-- `real_article if real_article else "No Article"`. -/
def article_sheet_name (article : String) : String :=
  if optTruthy (ARTICLE_CONV article) then (ARTICLE_CONV article).getD "" else "No Article"

/-- Result of one `add_word_to_excel` call: the workbook afterwards, whether
`wb.save` ran, and the reported duplicate when the add was aborted. -/
structure AddResult where
  wb : Workbook
  saved : Bool
  dup : Option (String × String)
deriving DecidableEq, Repr

/-- `add_word_to_excel`.  The script reads `is_verb` from the module-level
binding set by the main loop; it is passed here explicitly.  The result of
the nested network call `get_verb_conjugations(word)` is likewise passed in
as `conjFetch` (a Python `None` or the fetched conjugation dict). -/
def add_word_pipeline (word article definition : String) (lesson : Int)
    (is_verb : Bool) (conjFetch : Option (List (String × String)))
    (wb : Workbook) : Workbook :=
  let full_word := build_full_word article word
  let wb1 := if is_verb then wb else
    updateSheet (article_sheet_name article)
      (fun s => add_word_to_sheet s full_word definition)
      (updateSheet "General" (fun s => add_word_to_sheet s full_word definition) wb)
  let wb2 := updateSheet (lesson_sheet_name lesson)
    (fun s => add_word_to_sheet s full_word definition)
    (create_lesson_sheet wb1 lesson)
  if is_verb then
    match conjFetch with
    | some conjugations =>
      if conjugations.isEmpty then create_verbs_sheet wb2
      else updateSheet "Verbs"
        (fun s => add_verb_to_sheet s (adjusted_word article word) definition conjugations)
        (create_verbs_sheet wb2)
    | none => create_verbs_sheet wb2
  else wb2

/-- `add_word_to_excel` (continued): abort on a duplicate hit, else run the
append pipeline and save. -/
def add_word_to_excel (word article definition : String) (lesson : Int)
    (is_verb : Bool) (conjFetch : Option (List (String × String)))
    (wb : Workbook) : AddResult :=
  match check_duplicate (build_full_word article word) definition wb with
  | some wd => ⟨wb, false, some wd⟩
  | none => ⟨add_word_pipeline word article definition lesson is_verb conjFetch wb, true, none⟩

/-! ### get_verb_conjugations -/

/-- The conjugation page as fetched: HTTP status, and the first
`table.table` when present (`none` models `soup.find` yielding nothing, in
which case the Python code's `table.find_all` raises `AttributeError`,
caught by its handler).  Each table row is the list of its `td` texts. -/
structure ConjPage where
  status : Nat
  table : Option (List (List String))

/-- The `if`/`elif` chain mapping a person label to one of the six fixed
pronoun keys by substring containment, first match winning. -/
def mapPerson (person : String) : Option String :=
  if hasSub person "ich" then some "ich"
  else if hasSub person "du" then some "du"
  else if hasSub person "er/sie/es" then some "er/sie/es"
  else if hasSub person "wir" then some "wir"
  else if hasSub person "ihr" then some "ihr"
  else if hasSub person "sie" then some "sie/Sie"
  else none

/-- Process one table row: only two-column rows contribute, keyed by
`mapPerson` of the first column. -/
def conjRowStep (d : List (String × String)) (row : List String) :
    List (String × String) :=
  match row with
  | [person, conj] =>
    match mapPerson person with
    | some k => dictInsert d k conj
    | none => d
  | _ => d

/-- `get_verb_conjugations`: `none` on a non-200 status or a missing table,
else the dictionary accumulated over the table rows. -/
def get_verb_conjugations (p : ConjPage) : Option (List (String × String)) :=
  if p.status ≠ 200 then none
  else
    match p.table with
    | none => none
    | some rows => some (rows.foldl conjRowStep [])

/-! ### get_word_data -/

/-- The dictionary page as fetched: HTTP status, the `span.wordclass` tags
(each paired with its following `span.genus` sibling's text, `""` when
absent), and the definition texts extracted from the translation blocks. -/
structure WordPage where
  status : Nat
  wordclassTags : List (String × String)
  targets : List String

/-- The user's eventual answer at the definition-selection prompt: a 1-based
definition number, or a custom free-text definition (`a`). -/
inductive DefSel where
  | pick (n : Nat)
  | custom (s : String)
deriving DecidableEq, Repr

/-- Outcome of a `get_word_data` call.  `fetchFail` is the two-element
return `(None, None)` taken on a non-200 status; `ok` is the normal
three-element return; `raiseErr` is an exception escaping the function
(the `except` clause only catches `AttributeError`); `blocked` models a
re-prompt loop never exited (an invalid fixed choice). -/
inductive GWDResult where
  | fetchFail
  | ok (article definition : String) (isVerb : Bool)
  | raiseErr (e : String)
  | blocked
deriving DecidableEq, Repr

/-- `get_word_data`.  The local variable `article` is only assigned inside
the tag-extraction loop (taking the last tag's genus) or by the word-class
prompt; reading it while unbound raises `UnboundLocalError`, which the
`except AttributeError` clause does not catch.  This is modelled by an
`Option String` binding (`none` = unbound). -/
def get_word_data (p : WordPage) (classChoice : Nat) (sel : DefSel) : GWDResult :=
  if p.status ≠ 200 then .fetchFail
  else
    let rawArticle : Option String := (p.wordclassTags.getLast?).map Prod.snd
    let word_classes := dedupFirst p.wordclassTags
    let afterClass : Option (Option String × Bool) :=
      if word_classes.length > 1 ∧
          word_classes.any (fun wc => wc.1 == "N" || wc.1 == "VB") then
        if classChoice = 1 then
          some (some (((word_classes.find? (fun wc => wc.1 == "N")).map Prod.snd).getD ""), false)
        else if classChoice = 2 then some (some "", true)
        else if classChoice = 3 then some (some "", false)
        else none
      else
        some (rawArticle, word_classes.any (fun wc => wc.1 == "VB"))
    match afterClass with
    | none => .blocked
    | some (articleOpt, is_verb) =>
      let definitions := dedupFirst p.targets
      if definitions.isEmpty then
        match articleOpt with
        | none => .raiseErr "UnboundLocalError"
        | some a => .ok a "" is_verb
      else
        let selected : Option String :=
          match sel with
          | .pick n => if 0 < n ∧ n ≤ definitions.length then definitions.get? (n - 1) else none
          | .custom s => some s
        match selected with
        | none => .blocked
        | some d =>
          match articleOpt with
          | none => .raiseErr "UnboundLocalError"
          | some a => .ok a d is_verb

/-! ### The main loop's handling of one fetched word -/

/-- What the main loop does with one word after `get_word_data`. -/
inductive StepOutcome where
  | addWord (article definition : String) (isVerb : Bool)
  | skipWord
deriving DecidableEq, Repr

/-- `article, definition, is_verb = get_word_data(word)` followed by the
missing-data check.  Unpacking the two-element failure return into three
names raises `ValueError`; an exception escaping `get_word_data` also
terminates the loop.  `Except.error` models the uncaught exception ending
the process. -/
def main_unpack : GWDResult → Except String StepOutcome
  | .fetchFail => .error "ValueError: not enough values to unpack (expected 3, got 2)"
  | .raiseErr e => .error e
  | .blocked => .error "blocked at prompt"
  | .ok a d v => .ok (if d = "" then .skipWord else .addWord a d v)

/-! ### Order facts for the sort relation -/

theorem lexLe_total : ∀ l1 l2 : List Char, lexLe l1 l2 = true ∨ lexLe l2 l1 = true
  | [], _ => Or.inl rfl
  | _ :: _, [] => Or.inr rfl
  | a :: as, b :: bs => by
    by_cases hab : a < b
    · left; simp [lexLe, hab]
    · by_cases hba : b < a
      · right; simp [lexLe, hba, hab]
      · have h := lexLe_total as bs
        rcases h with h | h
        · left; simp [lexLe, hab, hba, h]
        · right; simp [lexLe, hab, hba, h]

theorem lexLe_trans : ∀ l1 l2 l3 : List Char,
    lexLe l1 l2 = true → lexLe l2 l3 = true → lexLe l1 l3 = true
  | [], _, _, _, _ => rfl
  | _ :: _, [], _, h12, _ => by simp [lexLe] at h12
  | _ :: _, _ :: _, [], _, h23 => by simp [lexLe] at h23
  | a :: as, b :: bs, c :: cs, h12, h23 => by
    simp only [lexLe] at h12 h23 ⊢
    by_cases hab : a < b
    · by_cases hbc : b < c
      · simp [lt_trans hab hbc]
      · by_cases hcb : c < b
        · simp [hbc, hcb] at h23
        · have hbc' : b = c := le_antisymm (not_lt.mp hcb) (not_lt.mp hbc)
          simp [hbc' ▸ hab]
    · by_cases hba : b < a
      · simp [hab, hba] at h12
      · have hab' : a = b := le_antisymm (not_lt.mp hba) (not_lt.mp hab)
        subst hab'
        by_cases hac : a < c
        · simp [hac]
        · by_cases hca : c < a
          · simp [hac, hca] at h23
          · simp only [hab, hac, hca, if_false] at h12 h23 ⊢
            exact lexLe_trans as bs cs h12 h23

instance : IsTotal Row rowLe :=
  ⟨fun a b => lexLe_total (sortKeyChars a.word) (sortKeyChars b.word)⟩

instance : IsTrans Row rowLe :=
  ⟨fun _ _ _ hab hbc => lexLe_trans _ _ _ hab hbc⟩

/-! ### Facts about pyStrip -/

/-- `all (!isWhitespace)` as a Bool predicate on a word. -/
def noWS (s : String) : Bool := s.data.all (fun c => !c.isWhitespace)

theorem stripChars_cons_of_ws {c : Char} (l : List Char) (h : c.isWhitespace = true) :
    stripChars (c :: l) = stripChars l := by
  simp [stripChars, List.dropWhile_cons, h]

theorem dropWhile_eq_self_of_head {p : Char → Bool} {a : Char} (l : List Char)
    (h : p a = false) : (a :: l).dropWhile p = a :: l := by
  simp [List.dropWhile_cons, h]

theorem stripChars_eq_self {a z : Char} (mid : List Char)
    (ha : a.isWhitespace = false) (hz : z.isWhitespace = false) :
    stripChars (a :: (mid ++ [z])) = a :: (mid ++ [z]) := by
  unfold stripChars
  rw [dropWhile_eq_self_of_head _ ha]
  have hrev : (a :: (mid ++ [z])).reverse = z :: (mid.reverse ++ [a]) := by
    simp
  rw [hrev, dropWhile_eq_self_of_head _ hz, ← hrev, List.reverse_reverse]

theorem stripChars_singleton {a : Char} (ha : a.isWhitespace = false) :
    stripChars [a] = [a] := by
  unfold stripChars
  rw [dropWhile_eq_self_of_head _ ha]
  simp [List.dropWhile_cons, ha]

/-- A nonempty list with no whitespace characters is unchanged by stripping. -/
theorem stripChars_eq_self_of_noWS {l : List Char} (hne : l ≠ [])
    (h : l.all (fun c => !c.isWhitespace) = true) : stripChars l = l := by
  match l, hne with
  | a :: rest, _ =>
    have ha : a.isWhitespace = false := by
      have := (List.all_eq_true.mp h) a (List.mem_cons_self a rest)
      simpa using this
    rcases rest.eq_nil_or_concat' with hr | ⟨mid, z, hr⟩
    · subst hr; exact stripChars_singleton ha
    · subst hr
      have hz : z.isWhitespace = false := by
        have := (List.all_eq_true.mp h) z (by simp)
        simpa using this
      exact stripChars_eq_self mid ha hz

/-! ### Sheet-name disequalities -/

theorem lesson_sheet_name_head (lesson : Int) :
    (lesson_sheet_name lesson).data.head? = some 'A' := rfl

theorem lesson_sheet_name_ne {t : String} (lesson : Int)
    (h : t.data.head? ≠ some 'A') : lesson_sheet_name lesson ≠ t :=
  fun he => h (he ▸ lesson_sheet_name_head lesson)

/-! ### Workbook lookup lemmas -/

theorem getSheet_updateSheet_ne {n m : String} (f : Sheet → Sheet)
    (hf : ∀ s, (f s).name = s.name) (h : n ≠ m) :
    ∀ wb : Workbook, getSheet n (updateSheet m f wb) = getSheet n wb := by
  intro wb
  induction wb with
  | nil => rfl
  | cons s rest ih =>
    by_cases hs : s.name = m
    · have hfs : ((f s).name == n) = false := by
        simp [hf s, hs, (Ne.symm h)]
      have hsn : (s.name == n) = false := by simp [hs, Ne.symm h]
      simp only [updateSheet, List.map_cons, if_pos hs, getSheet] at ih ⊢
      rw [List.find?_cons_of_neg _ (by simp [hfs]), List.find?_cons_of_neg _ (by simp [hsn])]
      exact ih
    · simp only [updateSheet, List.map_cons, if_neg hs, getSheet] at ih ⊢
      by_cases hsn : s.name = n
      · rw [List.find?_cons_of_pos _ (by simp [hsn]), List.find?_cons_of_pos _ (by simp [hsn])]
      · rw [List.find?_cons_of_neg _ (by simp [hsn]), List.find?_cons_of_neg _ (by simp [hsn])]
        exact ih

theorem getSheet_updateSheet_self {n : String} (f : Sheet → Sheet)
    (hf : ∀ s, (f s).name = s.name) :
    ∀ {wb : Workbook} {s : Sheet}, getSheet n wb = some s →
      getSheet n (updateSheet n f wb) = some (f s) := by
  intro wb
  induction wb with
  | nil => intro s h; simp [getSheet] at h
  | cons a rest ih =>
    intro s h
    by_cases ha : a.name = n
    · rw [getSheet, List.find?_cons_of_pos _ (by simp [ha])] at h
      injection h with h
      subst h
      simp only [updateSheet, List.map_cons, if_pos ha, getSheet]
      rw [List.find?_cons_of_pos _ (by simp [hf, ha])]
    · rw [getSheet, List.find?_cons_of_neg _ (by simp [ha])] at h
      simp only [updateSheet, List.map_cons, if_neg ha, getSheet]
      rw [List.find?_cons_of_neg _ (by simp [ha])]
      exact ih h

theorem getSheet_eq_none {n : String} {wb : Workbook} (h : hasSheet n wb = false) :
    getSheet n wb = none := by
  rw [getSheet, List.find?_eq_none]
  intro s hs
  have := List.any_eq_false.mp h s hs
  simpa using this

theorem getSheet_append_of_ne {n : String} {s0 : Sheet} (h : s0.name ≠ n)
    (wb : Workbook) : getSheet n (wb ++ [s0]) = getSheet n wb := by
  rw [getSheet, List.find?_append]
  have h1 : List.find? (fun s => s.name == n) [s0] = none := by
    rw [List.find?_eq_none]
    intro x hx
    rw [List.mem_singleton] at hx
    subst hx
    simp [h]
  rw [h1, Option.or_none]
  rfl

theorem getRows_updateSheet_ne {n m : String} (f : Sheet → Sheet)
    (hf : ∀ s, (f s).name = s.name) (h : n ≠ m) (wb : Workbook) :
    getRows n (updateSheet m f wb) = getRows n wb := by
  rw [getRows, getRows, getSheet_updateSheet_ne f hf h]

theorem getRows_append_of_ne {n : String} {s0 : Sheet} (h : s0.name ≠ n)
    (wb : Workbook) : getRows n (wb ++ [s0]) = getRows n wb := by
  rw [getRows, getRows, getSheet_append_of_ne h]

theorem getRows_create_lesson_ne {n : String} {lesson : Int}
    (h : lesson_sheet_name lesson ≠ n) (wb : Workbook) :
    getRows n (create_lesson_sheet wb lesson) = getRows n wb := by
  rw [create_lesson_sheet]
  by_cases hc : hasSheet (lesson_sheet_name lesson) wb
  · rw [if_pos hc]
  · rw [if_neg hc, getRows_append_of_ne h]

theorem getRows_create_verbs_ne {n : String} (h : n ≠ "Verbs") (wb : Workbook) :
    getRows n (create_verbs_sheet wb) = getRows n wb := by
  rw [create_verbs_sheet]
  by_cases hc : hasSheet "Verbs" wb
  · rw [if_pos hc]
  · rw [if_neg hc, getRows_append_of_ne (by simpa using Ne.symm h)]

/-- Creating the Verbs sheet never changes the observable Verbs rows: when
absent, the created sheet has no data rows, matching the empty default. -/
theorem getRows_create_verbs (wb : Workbook) :
    getRows "Verbs" (create_verbs_sheet wb) = getRows "Verbs" wb := by
  rw [create_verbs_sheet]
  by_cases hc : hasSheet "Verbs" wb
  · rw [if_pos hc]
  · rw [if_neg hc]
    have hn : getSheet "Verbs" wb = none := getSheet_eq_none (by simpa using hc)
    have hn' : List.find? (fun s => s.name == "Verbs") wb = none := hn
    simp [getRows, getSheet, List.find?_append, hn']

theorem hasSheet_updateSheet {n m : String} (f : Sheet → Sheet)
    (hf : ∀ s, (f s).name = s.name) (wb : Workbook) :
    hasSheet n (updateSheet m f wb) = hasSheet n wb := by
  induction wb with
  | nil => rfl
  | cons s rest ih =>
    simp only [updateSheet, List.map_cons, hasSheet, List.any_cons] at ih ⊢
    by_cases hs : s.name = m
    · rw [if_pos hs, hf s, ih]
    · rw [if_neg hs, ih]

theorem hasSheet_append_self {n : String} (h : List String) (r : List Row)
    (wb : Workbook) : hasSheet n (wb ++ [⟨n, h, r⟩]) = true := by
  simp [hasSheet, List.any_append]

theorem hasSheet_create_lesson (wb : Workbook) (lesson : Int) :
    hasSheet (lesson_sheet_name lesson) (create_lesson_sheet wb lesson) = true := by
  rw [create_lesson_sheet]
  by_cases hc : hasSheet (lesson_sheet_name lesson) wb
  · rw [if_pos hc]; exact hc
  · rw [if_neg hc]; exact hasSheet_append_self _ _ _

/-! ### Row membership lemmas -/

/-- The fresh two-column row appended by `add_word_to_sheet`. -/
def wordRow (w d : String) : Row := ⟨w, d, [], none⟩

theorem add_word_to_sheet_rows (s : Sheet) (w d : String) :
    (add_word_to_sheet s w d).rows =
      (List.insertionSort rowLe (s.rows ++ [wordRow w d])).map colorRow := rfl

theorem add_word_to_sheet_name (s : Sheet) (w d : String) :
    (add_word_to_sheet s w d).name = s.name := rfl

theorem add_word_to_sheet_header (s : Sheet) (w d : String) :
    (add_word_to_sheet s w d).header = s.header := rfl

theorem add_verb_to_sheet_name (s : Sheet) (v d : String)
    (c : List (String × String)) : (add_verb_to_sheet s v d c).name = s.name := rfl

theorem mem_add_word_to_sheet_self (s : Sheet) (w d : String) :
    ∃ r ∈ (add_word_to_sheet s w d).rows,
      r.word = w ∧ r.defn = d ∧ r.color = some (colorFor w) := by
  refine ⟨colorRow (wordRow w d), ?_, rfl, rfl, rfl⟩
  rw [add_word_to_sheet_rows]
  apply List.mem_map_of_mem
  rw [List.mem_insertionSort]
  simp [wordRow]

theorem mem_add_word_to_sheet_mono {s : Sheet} {r : Row} (hr : r ∈ s.rows)
    (w d : String) : ∃ r' ∈ (add_word_to_sheet s w d).rows,
      r'.word = r.word ∧ r'.defn = r.defn := by
  refine ⟨colorRow r, ?_, rfl, rfl⟩
  rw [add_word_to_sheet_rows]
  apply List.mem_map_of_mem
  rw [List.mem_insertionSort]
  exact List.mem_append_left _ hr

theorem mem_add_verb_to_sheet_self (s : Sheet) (v d : String)
    (c : List (String × String)) :
    ∃ r ∈ (add_verb_to_sheet s v d c).rows, r.word = v ∧ r.defn = d := by
  refine ⟨verbColorRow (verbRow v d c), ?_, rfl, rfl⟩
  apply List.mem_map_of_mem
  simp

/-! ### A (word, definition) pair stored somewhere in the workbook -/

/-- Some sheet of the workbook holds a data row with exactly this stored
word and definition. -/
def WbHasRow (w d : String) (wb : Workbook) : Prop :=
  ∃ s ∈ wb, ∃ r ∈ s.rows, r.word = w ∧ r.defn = d

theorem WbHasRow.updateSheet {w d : String} {wb : Workbook} (h : WbHasRow w d wb)
    (m : String) (f : Sheet → Sheet)
    (hf : ∀ s, ∀ r ∈ s.rows, ∃ r' ∈ (f s).rows, r'.word = r.word ∧ r'.defn = r.defn) :
    WbHasRow w d (updateSheet m f wb) := by
  obtain ⟨s, hs, r, hr, hw, hd⟩ := h
  by_cases hn : s.name = m
  · obtain ⟨r', hr', hw', hd'⟩ := hf s r hr
    refine ⟨f s, ?_, r', hr', hw'.trans hw, hd'.trans hd⟩
    have hmem := List.mem_map_of_mem (fun t : Sheet => if t.name = m then f t else t) hs
    simp only [if_pos hn] at hmem
    exact hmem
  · refine ⟨s, ?_, r, hr, hw, hd⟩
    have hmem := List.mem_map_of_mem (fun t : Sheet => if t.name = m then f t else t) hs
    simp only [if_neg hn] at hmem
    exact hmem

theorem WbHasRow.append {w d : String} {wb : Workbook} (h : WbHasRow w d wb)
    (l : Workbook) : WbHasRow w d (wb ++ l) := by
  obtain ⟨s, hs, rest⟩ := h
  exact ⟨s, List.mem_append_left _ hs, rest⟩

theorem WbHasRow.create_lesson {w d : String} {wb : Workbook}
    (h : WbHasRow w d wb) (lesson : Int) :
    WbHasRow w d (create_lesson_sheet wb lesson) := by
  rw [create_lesson_sheet]
  by_cases hc : hasSheet (lesson_sheet_name lesson) wb
  · rw [if_pos hc]; exact h
  · rw [if_neg hc]; exact h.append _

theorem add_word_to_excel_not_dup {word article definition : String} {lesson : Int}
    {is_verb : Bool} {conjFetch : Option (List (String × String))} {wb : Workbook}
    (h : check_duplicate (build_full_word article word) definition wb = none) :
    add_word_to_excel word article definition lesson is_verb conjFetch wb =
      ⟨add_word_pipeline word article definition lesson is_verb conjFetch wb,
        true, none⟩ := by
  rw [add_word_to_excel, h]

/-- Claim C2 (code bug): on a fetch failure (non-200 status) the code prints
an error and returns the two-element tuple `(None, None)`; the main loop
unpacks the result of `get_word_data` into three variables, so this return
raises `ValueError` and terminates the interactive session instead of
continuing to the next prompt as the spec claims. -/
theorem fetch_failure_crashes_loop (p : WordPage) (c : Nat) (s : DefSel)
    (h : p.status ≠ 200) :
    get_word_data p c s = GWDResult.fetchFail ∧
    main_unpack (get_word_data p c s) =
      Except.error "ValueError: not enough values to unpack (expected 3, got 2)" := by
  have h1 : get_word_data p c s = GWDResult.fetchFail := by
    unfold get_word_data
    rw [if_pos h]
  exact ⟨h1, by rw [h1]; rfl⟩

/-- Witness for C2 at a concrete 404 response. -/
theorem fetch_failure_crashes_loop_witness :
    get_word_data ⟨404, [], []⟩ 0 (DefSel.pick 1) = GWDResult.fetchFail ∧
    main_unpack (get_word_data ⟨404, [], []⟩ 0 (DefSel.pick 1)) =
      Except.error "ValueError: not enough values to unpack (expected 3, got 2)" :=
  fetch_failure_crashes_loop ⟨404, [], []⟩ 0 (DefSel.pick 1) (by decide)

/-- Claim C7: a conjugation-table person label is mapped to one of the six
fixed pronoun keys by substring matching in a fixed order, first match
winning per row: the label `du` maps to key `du`, the label `er/sie/es`
maps to key `er/sie/es` (not to `sie/Sie`), every produced key lies in the
six fixed keys, and a table carrying all six labels yields a conjugation
set with exactly 6 entries. -/
theorem conjugation_person_mapping :
    mapPerson "du" = some "du" ∧
    mapPerson "er/sie/es" = some "er/sie/es" ∧
    (∀ p : String, ((mapPerson p).getD "ich") ∈
      (["ich", "du", "er/sie/es", "wir", "ihr", "sie/Sie"] : List String)) ∧
    (get_verb_conjugations ⟨200, some [["ich", "laufe"], ["du", "läufst"],
      ["er/sie/es", "läuft"], ["wir", "laufen"], ["ihr", "lauft"],
      ["sie/Sie", "laufen"]]⟩).map List.length = some 6 := by
  refine ⟨rfl, rfl, ?_, rfl⟩
  intro p
  unfold mapPerson
  split_ifs <;> decide

/-- Claim C8 (code bug): for a 200 document whose expected markup is absent
(here: translation targets present but no word-class spans), the local
variable `article` is never assigned, so the final `return` raises
`UnboundLocalError`; the `except AttributeError` clause does not catch it
and the program terminates, instead of returning empty article/definition
with a warning as the spec claims. -/
theorem missing_wordclass_markup_raises :
    get_word_data ⟨200, [], ["people"]⟩ 1 (DefSel.pick 1) =
      GWDResult.raiseErr "UnboundLocalError" ∧
    main_unpack (get_word_data ⟨200, [], ["people"]⟩ 1 (DefSel.pick 1)) =
      Except.error "UnboundLocalError" := ⟨rfl, rfl⟩

/-! ### Canonical display-word lemmas -/

theorem data_ne_nil_of_ne_empty {s : String} (h : s ≠ "") : s.data ≠ [] := by
  intro hc
  exact h (String.ext_iff.mpr (by rw [hc]))

theorem pyLower_data_ne_nil {word : String} (h : word ≠ "") :
    (pyLower word).data ≠ [] := by
  show word.data.map Char.toLower ≠ []
  have h0 := data_ne_nil_of_ne_empty h
  simp [h0]

theorem pyCapitalize_data_ne_nil {word : String} (h : word ≠ "") :
    (pyCapitalize word).data ≠ [] := by
  have h0 := data_ne_nil_of_ne_empty h
  unfold pyCapitalize
  rcases hw : word.data with _ | ⟨c, rest⟩
  · exact absurd hw h0
  · simp

/-- Stripping `f"{a} {x}"` is the identity when `a` is a real article and
`x` is nonempty without whitespace. -/
theorem pyStrip_art {a : String} (ha : a ∈ (["der", "die", "das"] : List String))
    {x : String} (hx : x.data ≠ []) (hw : noWS x = true) :
    pyStrip (a ++ " " ++ x) = a ++ " " ++ x := by
  rcases x.data.eq_nil_or_concat' with hc | ⟨ys, z, hys⟩
  · exact absurd hc hx
  · have hz : z.isWhitespace = false := by
      have := List.all_eq_true.mp hw z (by rw [hys]; simp)
      simpa using this
    rw [String.ext_iff]
    show stripChars (a ++ " " ++ x).data = (a ++ " " ++ x).data
    rw [String.data_append, String.data_append, hys]
    fin_cases ha
    · have he : "der".data ++ " ".data ++ (ys ++ [z]) =
          'd' :: ((['e', 'r', ' '] ++ ys) ++ [z]) := by simp
      rw [he, stripChars_eq_self _ (by decide) hz]
    · have he : "die".data ++ " ".data ++ (ys ++ [z]) =
          'd' :: ((['i', 'e', ' '] ++ ys) ++ [z]) := by simp
      rw [he, stripChars_eq_self _ (by decide) hz]
    · have he : "das".data ++ " ".data ++ (ys ++ [z]) =
          'd' :: ((['a', 's', ' '] ++ ys) ++ [z]) := by simp
      rw [he, stripChars_eq_self _ (by decide) hz]

/-- Stripping `f"None {x}"` is the identity when `x` is nonempty without
whitespace. -/
theorem pyStrip_none_space {x : String} (hx : x.data ≠ []) (hw : noWS x = true) :
    pyStrip ("None" ++ " " ++ x) = "None " ++ x := by
  rcases x.data.eq_nil_or_concat' with hc | ⟨ys, z, hys⟩
  · exact absurd hc hx
  · have hz : z.isWhitespace = false := by
      have := List.all_eq_true.mp hw z (by rw [hys]; simp)
      simpa using this
    rw [String.ext_iff]
    show stripChars ("None" ++ " " ++ x).data = ("None " ++ x).data
    rw [String.data_append, String.data_append, String.data_append, hys]
    have he : "None".data ++ " ".data ++ (ys ++ [z]) =
        'N' :: ((['o', 'n', 'e', ' '] ++ ys) ++ [z]) := by simp
    rw [he, stripChars_eq_self _ (by decide) hz]
    simp

/-- Stripping `f" {x}"` (empty article) yields `x` when `x` is nonempty
without whitespace. -/
theorem pyStrip_space {x : String} (hx : x.data ≠ []) (hw : noWS x = true) :
    pyStrip ("" ++ " " ++ x) = x := by
  rw [String.ext_iff]
  show stripChars ("" ++ " " ++ x).data = x.data
  rw [String.data_append, String.data_append]
  have he : "".data ++ " ".data ++ x.data = ' ' :: x.data := by simp
  rw [he, stripChars_cons_of_ws _ (by decide)]
  exact stripChars_eq_self_of_noWS hx hw

/-- For an article outside the conversion dictionary, the stored display
word is the literal text `None ` followed by the lowercased word. -/
theorem build_full_word_unknown {article word : String}
    (h : ARTICLE_CONV article = none) (hlow : noWS (pyLower word) = true)
    (hne : word ≠ "") :
    build_full_word article word = "None " ++ pyLower word := by
  rw [build_full_word, adjusted_word, h]
  show pyStrip ("None" ++ " " ++ pyLower word) = "None " ++ pyLower word
  exact pyStrip_none_space (pyLower_data_ne_nil hne) hlow

/-- Claim C6: for every added entry whose article tag is in the conversion
dictionary, the stored display word is `trim(convertedArticle + " " + word)`
where the word is capitalized exactly when the converted article is
non-empty and lowercased otherwise; in particular genus `nt` with `haus`
stores `das Haus` and an articleless `gehen` stores `gehen`. -/
theorem display_word_canonicalization (article word conv : String)
    (h : ARTICLE_CONV article = some conv)
    (hlow : noWS (pyLower word) = true) (hcap : noWS (pyCapitalize word) = true)
    (hne : word ≠ "") :
    build_full_word article word =
      pyStrip (conv ++ " " ++ (if conv = "" then pyLower word else pyCapitalize word)) ∧
    (conv ≠ "" → build_full_word article word = conv ++ " " ++ pyCapitalize word) ∧
    (conv = "" → build_full_word article word = pyLower word) ∧
    build_full_word "nt" "haus" = "das Haus" ∧
    build_full_word "" "gehen" = "gehen" := by
  have hart : (article = "m" ∧ conv = "der") ∨ (article = "f" ∧ conv = "die") ∨
      (article = "nt" ∧ conv = "das") ∨ (article = "" ∧ conv = "") := by
    rw [ARTICLE_CONV] at h
    split_ifs at h with h1 h2 h3 h4
    · injection h with h'
      exact Or.inl ⟨h1, h'.symm⟩
    · injection h with h'
      exact Or.inr (Or.inl ⟨h2, h'.symm⟩)
    · injection h with h'
      exact Or.inr (Or.inr (Or.inl ⟨h3, h'.symm⟩))
    · injection h with h'
      exact Or.inr (Or.inr (Or.inr ⟨h4, h'.symm⟩))
  have hex1 : build_full_word "nt" "haus" = "das Haus" := by decide
  have hex2 : build_full_word "" "gehen" = "gehen" := by decide
  rcases hart with ⟨ha, hc⟩ | ⟨ha, hc⟩ | ⟨ha, hc⟩ | ⟨ha, hc⟩ <;> subst ha <;> subst hc
  · refine ⟨?_, fun _ => ?_, fun hcc => absurd hcc (by decide), hex1, hex2⟩
    · simp [build_full_word, adjusted_word, ARTICLE_CONV, optTruthy, pyStr,
        show ("der".isEmpty = false) from rfl]
    · show pyStrip ("der" ++ " " ++ pyCapitalize word) = "der" ++ " " ++ pyCapitalize word
      exact pyStrip_art (by decide) (pyCapitalize_data_ne_nil hne) hcap
  · refine ⟨?_, fun _ => ?_, fun hcc => absurd hcc (by decide), hex1, hex2⟩
    · simp [build_full_word, adjusted_word, ARTICLE_CONV, optTruthy, pyStr,
        show ("die".isEmpty = false) from rfl]
    · show pyStrip ("die" ++ " " ++ pyCapitalize word) = "die" ++ " " ++ pyCapitalize word
      exact pyStrip_art (by decide) (pyCapitalize_data_ne_nil hne) hcap
  · refine ⟨?_, fun _ => ?_, fun hcc => absurd hcc (by decide), hex1, hex2⟩
    · simp [build_full_word, adjusted_word, ARTICLE_CONV, optTruthy, pyStr,
        show ("das".isEmpty = false) from rfl]
    · show pyStrip ("das" ++ " " ++ pyCapitalize word) = "das" ++ " " ++ pyCapitalize word
      exact pyStrip_art (by decide) (pyCapitalize_data_ne_nil hne) hcap
  · refine ⟨?_, fun hcc => absurd rfl hcc, fun _ => ?_, hex1, hex2⟩
    · simp [build_full_word, adjusted_word, ARTICLE_CONV, optTruthy, pyStr,
        show ("".isEmpty = true) from rfl]
    · show pyStrip ("" ++ " " ++ pyLower word) = pyLower word
      exact pyStrip_space (pyLower_data_ne_nil hne) hlow

/-- Witness for C6 at genus `nt`, word `haus`. -/
theorem display_word_canonicalization_witness :
    build_full_word "nt" "haus" =
      pyStrip ("das" ++ " " ++
        (if "das" = "" then pyLower "haus" else pyCapitalize "haus")) ∧
    ("das" ≠ "" → build_full_word "nt" "haus" = "das" ++ " " ++ pyCapitalize "haus") ∧
    ("das" = "" → build_full_word "nt" "haus" = pyLower "haus") ∧
    build_full_word "nt" "haus" = "das Haus" ∧
    build_full_word "" "gehen" = "gehen" :=
  display_word_canonicalization "nt" "haus" "das" rfl (by decide) (by decide) (by decide)

/-- Claim C10: an article string outside the keys of the conversion
dictionary makes the lookup yield Python `None`, and the stored display
word becomes the literal text `None ` followed by the lowercased word
rather than the bare word. -/
theorem unknown_genus_stores_none_prefix (article word : String)
    (h1 : article ≠ "m") (h2 : article ≠ "f") (h3 : article ≠ "nt")
    (h4 : article ≠ "") (hlow : noWS (pyLower word) = true) (hne : word ≠ "") :
    ARTICLE_CONV article = none ∧
    build_full_word article word = "None " ++ pyLower word := by
  have hc : ARTICLE_CONV article = none := by
    rw [ARTICLE_CONV, if_neg h1, if_neg h2, if_neg h3, if_neg h4]
  exact ⟨hc, build_full_word_unknown hc hlow hne⟩

/-- Witness for C10 at the unrecognized genus tag `pl` and word `leute`. -/
theorem unknown_genus_stores_none_prefix_witness :
    ARTICLE_CONV "pl" = none ∧
    build_full_word "pl" "leute" = "None " ++ pyLower "leute" :=
  unknown_genus_stores_none_prefix "pl" "leute"
    (by decide) (by decide) (by decide) (by decide) (by decide) (by decide)

/-! ### Pipeline projection lemmas -/

theorem hasSheet_create_verbs (wb : Workbook) :
    hasSheet "Verbs" (create_verbs_sheet wb) = true := by
  rw [create_verbs_sheet]
  by_cases hc : hasSheet "Verbs" wb
  · rw [if_pos hc]; exact hc
  · rw [if_neg hc]; exact hasSheet_append_self _ _ _

theorem getSheet_of_hasSheet {n : String} {wb : Workbook}
    (hc : hasSheet n wb = true) : ∃ s, getSheet n wb = some s := by
  cases hs : getSheet n wb with
  | some s => exact ⟨s, rfl⟩
  | none =>
    exfalso
    obtain ⟨s, hmem, hname⟩ := List.any_eq_true.mp hc
    rw [getSheet, List.find?_eq_none] at hs
    exact hs s hmem hname

theorem getRows_update_self {n : String} {wb : Workbook} {s : Sheet}
    (f : Sheet → Sheet) (hf : ∀ t, (f t).name = t.name)
    (h : getSheet n wb = some s) :
    getRows n (updateSheet n f wb) = (f s).rows := by
  rw [getRows, getSheet_updateSheet_self f hf h]
  rfl

theorem getRows_update_addword_ne {n m : String} (w d : String) (h : n ≠ m)
    (wb : Workbook) :
    getRows n (updateSheet m (fun s => add_word_to_sheet s w d) wb) = getRows n wb :=
  getRows_updateSheet_ne (fun s => add_word_to_sheet s w d) (fun _ => rfl) h wb

theorem getRows_update_addverb_ne {n m : String} (v d : String)
    (c : List (String × String)) (h : n ≠ m) (wb : Workbook) :
    getRows n (updateSheet m (fun s => add_verb_to_sheet s v d c) wb) = getRows n wb :=
  getRows_updateSheet_ne (fun s => add_verb_to_sheet s v d c) (fun _ => rfl) h wb

theorem hasSheet_update_addverb (n m : String) (v d : String)
    (c : List (String × String)) (wb : Workbook) :
    hasSheet n (updateSheet m (fun s => add_verb_to_sheet s v d c) wb) = hasSheet n wb :=
  hasSheet_updateSheet (fun s => add_verb_to_sheet s v d c) (fun _ => rfl) wb

/-- The lesson sheet of the pipeline result always contains the new row. -/
theorem lesson_row_mem_pipeline (word article definition : String) (lesson : Int)
    (is_verb : Bool) (conjFetch : Option (List (String × String))) (wb : Workbook) :
    ∃ r ∈ getRows (lesson_sheet_name lesson)
        (add_word_pipeline word article definition lesson is_verb conjFetch wb),
      r.word = build_full_word article word ∧ r.defn = definition := by
  have hVne : lesson_sheet_name lesson ≠ "Verbs" :=
    lesson_sheet_name_ne lesson (by decide)
  have core : ∀ wb1 : Workbook,
      ∃ r ∈ getRows (lesson_sheet_name lesson)
          (updateSheet (lesson_sheet_name lesson)
            (fun s => add_word_to_sheet s (build_full_word article word) definition)
            (create_lesson_sheet wb1 lesson)),
        r.word = build_full_word article word ∧ r.defn = definition := by
    intro wb1
    obtain ⟨s, hs⟩ := getSheet_of_hasSheet (hasSheet_create_lesson wb1 lesson)
    rw [getRows_update_self
      (fun t => add_word_to_sheet t (build_full_word article word) definition)
      (fun _ => rfl) hs]
    obtain ⟨r, hr, hw, hd, _⟩ :=
      mem_add_word_to_sheet_self s (build_full_word article word) definition
    exact ⟨r, hr, hw, hd⟩
  cases is_verb with
  | false =>
    simp only [add_word_pipeline, Bool.false_eq_true, if_false]
    exact core _
  | true =>
    cases conjFetch with
    | none =>
      simp only [add_word_pipeline, if_true]
      rw [getRows_create_verbs_ne hVne]
      exact core _
    | some c =>
      by_cases hc : c.isEmpty
      · simp only [add_word_pipeline, if_true, hc]
        rw [getRows_create_verbs_ne hVne]
        exact core _
      · simp only [add_word_pipeline, if_true, hc, Bool.false_eq_true, if_false]
        rw [getRows_update_addverb_ne _ _ _ hVne, getRows_create_verbs_ne hVne]
        exact core _

/-- The verb-path pipeline leaves every sheet other than the lesson sheet
and the Verbs sheet untouched. -/
theorem getRows_pipeline_verb_other {t : String} (word article definition : String)
    (lesson : Int) (conjFetch : Option (List (String × String))) (wb : Workbook)
    (ht1 : lesson_sheet_name lesson ≠ t) (ht2 : t ≠ "Verbs") :
    getRows t (add_word_pipeline word article definition lesson true conjFetch wb) =
      getRows t wb := by
  have hbase : getRows t
      (updateSheet (lesson_sheet_name lesson)
        (fun s => add_word_to_sheet s (build_full_word article word) definition)
        (create_lesson_sheet wb lesson)) = getRows t wb := by
    rw [getRows_update_addword_ne _ _ (Ne.symm ht1) _, getRows_create_lesson_ne ht1]
  cases conjFetch with
  | none =>
    simp only [add_word_pipeline, if_true]
    rw [getRows_create_verbs_ne ht2]
    exact hbase
  | some c =>
    by_cases hc : c.isEmpty
    · simp only [add_word_pipeline, if_true, hc]
      rw [getRows_create_verbs_ne ht2]
      exact hbase
    · simp only [add_word_pipeline, if_true, hc, Bool.false_eq_true, if_false]
      rw [getRows_update_addverb_ne _ _ _ ht2, getRows_create_verbs_ne ht2]
      exact hbase

/-- With no (or empty) fetched conjugations, the verb path leaves the Verbs
rows exactly as they were. -/
theorem getRows_verbs_pipeline_noconj (word article definition : String)
    (lesson : Int) (wb : Workbook) :
    getRows "Verbs" (add_word_pipeline word article definition lesson true none wb) =
      getRows "Verbs" wb := by
  have hVne : lesson_sheet_name lesson ≠ "Verbs" :=
    lesson_sheet_name_ne lesson (by decide)
  simp only [add_word_pipeline, if_true]
  rw [getRows_create_verbs, getRows_update_addword_ne _ _ (Ne.symm hVne) _,
    getRows_create_lesson_ne hVne]

theorem hasSheet_pipeline_verbs (word article definition : String)
    (lesson : Int) (conjFetch : Option (List (String × String))) (wb : Workbook) :
    hasSheet "Verbs"
      (add_word_pipeline word article definition lesson true conjFetch wb) = true := by
  cases conjFetch with
  | none =>
    simp only [add_word_pipeline, if_true]
    exact hasSheet_create_verbs _
  | some c =>
    by_cases hc : c.isEmpty
    · simp only [add_word_pipeline, if_true, hc]
      exact hasSheet_create_verbs _
    · simp only [add_word_pipeline, if_true, hc, Bool.false_eq_true, if_false]
      rw [hasSheet_update_addverb]
      exact hasSheet_create_verbs _

theorem hasSheet_update_addword (n m : String) (w d : String) (wb : Workbook) :
    hasSheet n (updateSheet m (fun s => add_word_to_sheet s w d) wb) = hasSheet n wb :=
  hasSheet_updateSheet (fun s => add_word_to_sheet s w d) (fun _ => rfl) wb

theorem article_sheet_name_cases (article : String) :
    article_sheet_name article = "der" ∨ article_sheet_name article = "die" ∨
    article_sheet_name article = "das" ∨ article_sheet_name article = "No Article" := by
  by_cases h1 : article = "m"
  · subst h1; exact Or.inl rfl
  · by_cases h2 : article = "f"
    · subst h2; exact Or.inr (Or.inl rfl)
    · by_cases h3 : article = "nt"
      · subst h3; exact Or.inr (Or.inr (Or.inl rfl))
      · by_cases h4 : article = ""
        · subst h4; exact Or.inr (Or.inr (Or.inr rfl))
        · have hc : ARTICLE_CONV article = none := by
            rw [ARTICLE_CONV, if_neg h1, if_neg h2, if_neg h3, if_neg h4]
          right; right; right
          rw [article_sheet_name, hc]
          rfl

theorem article_sheet_name_ne_general (article : String) :
    article_sheet_name article ≠ "General" := by
  rcases article_sheet_name_cases article with h | h | h | h <;> rw [h] <;> decide

theorem article_sheet_name_ne_verbs (article : String) :
    article_sheet_name article ≠ "Verbs" := by
  rcases article_sheet_name_cases article with h | h | h | h <;> rw [h] <;> decide

theorem lesson_ne_article_sheet_name (lesson : Int) (article : String) :
    lesson_sheet_name lesson ≠ article_sheet_name article := by
  rcases article_sheet_name_cases article with h | h | h | h <;> rw [h] <;>
    exact lesson_sheet_name_ne lesson (by decide)

/-- Non-verb pipeline: the General sheet ends holding the new row. -/
theorem general_row_mem_pipeline (word article definition : String) (lesson : Int)
    (conjFetch : Option (List (String × String))) (wb : Workbook)
    (hGen : hasSheet "General" wb = true) :
    ∃ r ∈ getRows "General"
        (add_word_pipeline word article definition lesson false conjFetch wb),
      r.word = build_full_word article word ∧ r.defn = definition ∧
        r.color = some (colorFor (build_full_word article word)) := by
  simp only [add_word_pipeline, Bool.false_eq_true, if_false]
  have hl : lesson_sheet_name lesson ≠ "General" :=
    lesson_sheet_name_ne lesson (by decide)
  rw [getRows_update_addword_ne _ _ (Ne.symm hl) _, getRows_create_lesson_ne hl,
    getRows_update_addword_ne _ _ (Ne.symm (article_sheet_name_ne_general article)) _]
  obtain ⟨s, hs⟩ := getSheet_of_hasSheet hGen
  rw [getRows_update_self
    (fun t => add_word_to_sheet t (build_full_word article word) definition)
    (fun _ => rfl) hs]
  exact mem_add_word_to_sheet_self s _ _

/-- Non-verb pipeline: the article-named sheet ends holding the new row. -/
theorem article_row_mem_pipeline (word article definition : String) (lesson : Int)
    (conjFetch : Option (List (String × String))) (wb : Workbook)
    (hArt : hasSheet (article_sheet_name article) wb = true) :
    ∃ r ∈ getRows (article_sheet_name article)
        (add_word_pipeline word article definition lesson false conjFetch wb),
      r.word = build_full_word article word ∧ r.defn = definition ∧
        r.color = some (colorFor (build_full_word article word)) := by
  simp only [add_word_pipeline, Bool.false_eq_true, if_false]
  have hl : lesson_sheet_name lesson ≠ article_sheet_name article :=
    lesson_ne_article_sheet_name lesson article
  rw [getRows_update_addword_ne _ _ (Ne.symm hl) _, getRows_create_lesson_ne hl]
  have hArt2 : hasSheet (article_sheet_name article)
      (updateSheet "General"
        (fun s => add_word_to_sheet s (build_full_word article word) definition) wb) = true := by
    rw [hasSheet_update_addword]
    exact hArt
  obtain ⟨s, hs⟩ := getSheet_of_hasSheet hArt2
  rw [getRows_update_self
    (fun t => add_word_to_sheet t (build_full_word article word) definition)
    (fun _ => rfl) hs]
  exact mem_add_word_to_sheet_self s _ _

/-- Non-verb pipeline: the Verbs rows are untouched. -/
theorem getRows_verbs_pipeline_nonverb (word article definition : String)
    (lesson : Int) (conjFetch : Option (List (String × String))) (wb : Workbook) :
    getRows "Verbs" (add_word_pipeline word article definition lesson false conjFetch wb) =
      getRows "Verbs" wb := by
  simp only [add_word_pipeline, Bool.false_eq_true, if_false]
  have hl : lesson_sheet_name lesson ≠ "Verbs" :=
    lesson_sheet_name_ne lesson (by decide)
  rw [getRows_update_addword_ne _ _ (Ne.symm hl) _, getRows_create_lesson_ne hl,
    getRows_update_addword_ne _ _ (Ne.symm (article_sheet_name_ne_verbs article)) _,
    getRows_update_addword_ne _ _ (show ("Verbs" : String) ≠ "General" by decide) _]

/-- Verb pipeline with a non-empty conjugation set: the Verbs sheet ends
holding the verb row. -/
theorem verbs_row_mem_pipeline (word article definition : String) (lesson : Int)
    (c : List (String × String)) (hc : c.isEmpty = false) (wb : Workbook) :
    ∃ r ∈ getRows "Verbs"
        (add_word_pipeline word article definition lesson true (some c) wb),
      r.word = adjusted_word article word ∧ r.defn = definition := by
  simp only [add_word_pipeline, if_true, hc, Bool.false_eq_true, if_false]
  obtain ⟨s, hs⟩ := getSheet_of_hasSheet (hasSheet_create_verbs
    (updateSheet (lesson_sheet_name lesson)
      (fun t => add_word_to_sheet t (build_full_word article word) definition)
      (create_lesson_sheet wb lesson)))
  rw [getRows_update_self
    (fun t => add_verb_to_sheet t (adjusted_word article word) definition c)
    (fun _ => rfl) hs]
  exact mem_add_verb_to_sheet_self s _ _ _

/-- Counterexample to claim C1: adding the verb `gehen` while the
conjugation fetch yields none creates the Verbs sheet but appends no row to
it — the verb is not recorded in the Verbs collection. -/
theorem verb_missing_conjugations_not_in_verbs :
    ¬ ∃ r ∈ getRows "Verbs"
        (add_word_to_excel "gehen" "" "to go" 1 true none freshWorkbook).wb,
      r.word = "gehen" := by decide

/-- Claim C1 (amended): a conjugation fetch yielding none is non-fatal to
the add — the workbook is still saved and the verb is recorded in its
lesson collection, and the Verbs sheet is present afterwards — but no verb
row is appended to the Verbs collection, whose rows stay exactly as before. -/
theorem verb_add_missing_conjugations (word article definition : String)
    (lesson : Int) (wb : Workbook)
    (h : check_duplicate (build_full_word article word) definition wb = none) :
    (add_word_to_excel word article definition lesson true none wb).saved = true ∧
    hasSheet "Verbs" (add_word_to_excel word article definition lesson true none wb).wb
      = true ∧
    getRows "Verbs" (add_word_to_excel word article definition lesson true none wb).wb
      = getRows "Verbs" wb ∧
    ∃ r ∈ getRows (lesson_sheet_name lesson)
        (add_word_to_excel word article definition lesson true none wb).wb,
      r.word = build_full_word article word ∧ r.defn = definition := by
  rw [add_word_to_excel_not_dup h]
  exact ⟨rfl, hasSheet_pipeline_verbs word article definition lesson none wb,
    getRows_verbs_pipeline_noconj word article definition lesson wb,
    lesson_row_mem_pipeline word article definition lesson true none wb⟩

/-- Witness for C1 (amended) at the verb `gehen` on a fresh workbook. -/
theorem verb_add_missing_conjugations_witness :
    (add_word_to_excel "gehen" "" "to go" 1 true none freshWorkbook).saved = true ∧
    hasSheet "Verbs" (add_word_to_excel "gehen" "" "to go" 1 true none freshWorkbook).wb
      = true ∧
    getRows "Verbs" (add_word_to_excel "gehen" "" "to go" 1 true none freshWorkbook).wb
      = getRows "Verbs" freshWorkbook ∧
    ∃ r ∈ getRows (lesson_sheet_name 1)
        (add_word_to_excel "gehen" "" "to go" 1 true none freshWorkbook).wb,
      r.word = build_full_word "" "gehen" ∧ r.defn = "to go" :=
  verb_add_missing_conjugations "gehen" "" "to go" 1 freshWorkbook (by decide)

/-- Counterexample to claim C4: the verb `arbeiten` added with a failed
conjugation fetch lands in its lesson collection but not in the Verbs
collection, so a verb entry is not always stored in Verbs. -/
theorem verb_entry_absent_from_verbs_sheet :
    getRows "Verbs"
        (add_word_to_excel "arbeiten" "" "to work" 2 true none freshWorkbook).wb = [] ∧
    ∃ r ∈ getRows (lesson_sheet_name 2)
        (add_word_to_excel "arbeiten" "" "to work" 2 true none freshWorkbook).wb,
      r.word = "arbeiten" := by decide

/-- Claim C4 (amended): a non-verb entry is stored in General, in the
article-named collection (or `No Article`), and in the lesson collection,
leaving Verbs untouched; a verb entry is stored in the lesson collection
always and in the Verbs collection exactly when the conjugation fetch
yields a non-empty set, and it never touches General or any article
collection. -/
theorem add_word_collection_routing (word article definition : String)
    (lesson : Int) (is_verb : Bool) (conjFetch : Option (List (String × String)))
    (wb : Workbook)
    (h : check_duplicate (build_full_word article word) definition wb = none)
    (hGen : hasSheet "General" wb = true)
    (hArt : hasSheet (article_sheet_name article) wb = true) :
    (is_verb = false →
      (∃ r ∈ getRows "General"
          (add_word_to_excel word article definition lesson is_verb conjFetch wb).wb,
        r.word = build_full_word article word ∧ r.defn = definition) ∧
      (∃ r ∈ getRows (article_sheet_name article)
          (add_word_to_excel word article definition lesson is_verb conjFetch wb).wb,
        r.word = build_full_word article word ∧ r.defn = definition) ∧
      (∃ r ∈ getRows (lesson_sheet_name lesson)
          (add_word_to_excel word article definition lesson is_verb conjFetch wb).wb,
        r.word = build_full_word article word ∧ r.defn = definition) ∧
      getRows "Verbs"
          (add_word_to_excel word article definition lesson is_verb conjFetch wb).wb =
        getRows "Verbs" wb) ∧
    (is_verb = true →
      (∃ r ∈ getRows (lesson_sheet_name lesson)
          (add_word_to_excel word article definition lesson is_verb conjFetch wb).wb,
        r.word = build_full_word article word ∧ r.defn = definition) ∧
      getRows "General"
          (add_word_to_excel word article definition lesson is_verb conjFetch wb).wb =
        getRows "General" wb ∧
      getRows "der"
          (add_word_to_excel word article definition lesson is_verb conjFetch wb).wb =
        getRows "der" wb ∧
      getRows "die"
          (add_word_to_excel word article definition lesson is_verb conjFetch wb).wb =
        getRows "die" wb ∧
      getRows "das"
          (add_word_to_excel word article definition lesson is_verb conjFetch wb).wb =
        getRows "das" wb ∧
      getRows "No Article"
          (add_word_to_excel word article definition lesson is_verb conjFetch wb).wb =
        getRows "No Article" wb ∧
      (∀ c, conjFetch = some c → c.isEmpty = false →
        ∃ r ∈ getRows "Verbs"
            (add_word_to_excel word article definition lesson is_verb conjFetch wb).wb,
          r.word = adjusted_word article word ∧ r.defn = definition)) := by
  rw [add_word_to_excel_not_dup h]
  constructor
  · intro hv
    subst hv
    refine ⟨?_, ?_, lesson_row_mem_pipeline word article definition lesson false conjFetch wb,
      getRows_verbs_pipeline_nonverb word article definition lesson conjFetch wb⟩
    · obtain ⟨r, hr, hw, hd, _⟩ :=
        general_row_mem_pipeline word article definition lesson conjFetch wb hGen
      exact ⟨r, hr, hw, hd⟩
    · obtain ⟨r, hr, hw, hd, _⟩ :=
        article_row_mem_pipeline word article definition lesson conjFetch wb hArt
      exact ⟨r, hr, hw, hd⟩
  · intro hv
    subst hv
    refine ⟨lesson_row_mem_pipeline word article definition lesson true conjFetch wb,
      getRows_pipeline_verb_other word article definition lesson conjFetch wb
        (lesson_sheet_name_ne lesson (by decide)) (by decide),
      getRows_pipeline_verb_other word article definition lesson conjFetch wb
        (lesson_sheet_name_ne lesson (by decide)) (by decide),
      getRows_pipeline_verb_other word article definition lesson conjFetch wb
        (lesson_sheet_name_ne lesson (by decide)) (by decide),
      getRows_pipeline_verb_other word article definition lesson conjFetch wb
        (lesson_sheet_name_ne lesson (by decide)) (by decide),
      getRows_pipeline_verb_other word article definition lesson conjFetch wb
        (lesson_sheet_name_ne lesson (by decide)) (by decide),
      ?_⟩
    intro c hcf hce
    subst hcf
    exact verbs_row_mem_pipeline word article definition lesson c hce wb

/-- Witness for C4 (amended): the verb `laufen` with definition `to run`,
lesson 3 and a fetched conjugation set, on a fresh workbook. -/
theorem add_word_collection_routing_witness :
    ((false : Bool) = false →
      (∃ r ∈ getRows "General"
          (add_word_to_excel "laufen" "" "to run" 3 false (some [("ich", "laufe")])
            freshWorkbook).wb,
        r.word = build_full_word "" "laufen" ∧ r.defn = "to run") ∧
      (∃ r ∈ getRows (article_sheet_name "")
          (add_word_to_excel "laufen" "" "to run" 3 false (some [("ich", "laufe")])
            freshWorkbook).wb,
        r.word = build_full_word "" "laufen" ∧ r.defn = "to run") ∧
      (∃ r ∈ getRows (lesson_sheet_name 3)
          (add_word_to_excel "laufen" "" "to run" 3 false (some [("ich", "laufe")])
            freshWorkbook).wb,
        r.word = build_full_word "" "laufen" ∧ r.defn = "to run") ∧
      getRows "Verbs"
          (add_word_to_excel "laufen" "" "to run" 3 false (some [("ich", "laufe")])
            freshWorkbook).wb =
        getRows "Verbs" freshWorkbook) ∧
    ((false : Bool) = true →
      (∃ r ∈ getRows (lesson_sheet_name 3)
          (add_word_to_excel "laufen" "" "to run" 3 false (some [("ich", "laufe")])
            freshWorkbook).wb,
        r.word = build_full_word "" "laufen" ∧ r.defn = "to run") ∧
      getRows "General"
          (add_word_to_excel "laufen" "" "to run" 3 false (some [("ich", "laufe")])
            freshWorkbook).wb =
        getRows "General" freshWorkbook ∧
      getRows "der"
          (add_word_to_excel "laufen" "" "to run" 3 false (some [("ich", "laufe")])
            freshWorkbook).wb =
        getRows "der" freshWorkbook ∧
      getRows "die"
          (add_word_to_excel "laufen" "" "to run" 3 false (some [("ich", "laufe")])
            freshWorkbook).wb =
        getRows "die" freshWorkbook ∧
      getRows "das"
          (add_word_to_excel "laufen" "" "to run" 3 false (some [("ich", "laufe")])
            freshWorkbook).wb =
        getRows "das" freshWorkbook ∧
      getRows "No Article"
          (add_word_to_excel "laufen" "" "to run" 3 false (some [("ich", "laufe")])
            freshWorkbook).wb =
        getRows "No Article" freshWorkbook ∧
      (∀ c, (some [("ich", "laufe")] : Option (List (String × String))) = some c →
        c.isEmpty = false →
        ∃ r ∈ getRows "Verbs"
            (add_word_to_excel "laufen" "" "to run" 3 false (some [("ich", "laufe")])
              freshWorkbook).wb,
          r.word = adjusted_word "" "laufen" ∧ r.defn = "to run")) :=
  add_word_collection_routing "laufen" "" "to run" 3 false (some [("ich", "laufe")])
    freshWorkbook (by decide) (by decide) (by decide)

/-! ### Sortedness of re-sorted sheets -/

theorem sorted_add_word_to_sheet (s : Sheet) (w d : String) :
    List.Sorted rowLe (add_word_to_sheet s w d).rows := by
  rw [add_word_to_sheet_rows]
  have hs := List.sorted_insertionSort rowLe (s.rows ++ [wordRow w d])
  exact List.pairwise_map.mpr (hs.imp (fun h => h))

theorem getRows_general_pipeline_eq (word article definition : String)
    (lesson : Int) (conjFetch : Option (List (String × String))) (wb : Workbook)
    (hGen : hasSheet "General" wb = true) :
    ∃ s, getRows "General"
        (add_word_pipeline word article definition lesson false conjFetch wb) =
      (add_word_to_sheet s (build_full_word article word) definition).rows := by
  simp only [add_word_pipeline, Bool.false_eq_true, if_false]
  have hl : lesson_sheet_name lesson ≠ "General" :=
    lesson_sheet_name_ne lesson (by decide)
  rw [getRows_update_addword_ne _ _ (Ne.symm hl) _, getRows_create_lesson_ne hl,
    getRows_update_addword_ne _ _ (Ne.symm (article_sheet_name_ne_general article)) _]
  obtain ⟨s, hs⟩ := getSheet_of_hasSheet hGen
  exact ⟨s, getRows_update_self
    (fun t => add_word_to_sheet t (build_full_word article word) definition)
    (fun _ => rfl) hs⟩

theorem getRows_article_pipeline_eq (word article definition : String)
    (lesson : Int) (conjFetch : Option (List (String × String))) (wb : Workbook)
    (hArt : hasSheet (article_sheet_name article) wb = true) :
    ∃ s, getRows (article_sheet_name article)
        (add_word_pipeline word article definition lesson false conjFetch wb) =
      (add_word_to_sheet s (build_full_word article word) definition).rows := by
  simp only [add_word_pipeline, Bool.false_eq_true, if_false]
  have hl : lesson_sheet_name lesson ≠ article_sheet_name article :=
    lesson_ne_article_sheet_name lesson article
  rw [getRows_update_addword_ne _ _ (Ne.symm hl) _, getRows_create_lesson_ne hl]
  have hArt2 : hasSheet (article_sheet_name article)
      (updateSheet "General"
        (fun s => add_word_to_sheet s (build_full_word article word) definition) wb)
        = true := by
    rw [hasSheet_update_addword]
    exact hArt
  obtain ⟨s, hs⟩ := getSheet_of_hasSheet hArt2
  exact ⟨s, getRows_update_self
    (fun t => add_word_to_sheet t (build_full_word article word) definition)
    (fun _ => rfl) hs⟩

theorem getRows_lesson_pipeline_eq (word article definition : String)
    (lesson : Int) (is_verb : Bool) (conjFetch : Option (List (String × String)))
    (wb : Workbook) :
    ∃ s, getRows (lesson_sheet_name lesson)
        (add_word_pipeline word article definition lesson is_verb conjFetch wb) =
      (add_word_to_sheet s (build_full_word article word) definition).rows := by
  have hVne : lesson_sheet_name lesson ≠ "Verbs" :=
    lesson_sheet_name_ne lesson (by decide)
  have core : ∀ wb1 : Workbook, ∃ s,
      getRows (lesson_sheet_name lesson)
        (updateSheet (lesson_sheet_name lesson)
          (fun t => add_word_to_sheet t (build_full_word article word) definition)
          (create_lesson_sheet wb1 lesson)) =
      (add_word_to_sheet s (build_full_word article word) definition).rows := by
    intro wb1
    obtain ⟨s, hs⟩ := getSheet_of_hasSheet (hasSheet_create_lesson wb1 lesson)
    exact ⟨s, getRows_update_self
      (fun t => add_word_to_sheet t (build_full_word article word) definition)
      (fun _ => rfl) hs⟩
  cases is_verb with
  | false =>
    simp only [add_word_pipeline, Bool.false_eq_true, if_false]
    exact core _
  | true =>
    cases conjFetch with
    | none =>
      simp only [add_word_pipeline, if_true]
      rw [getRows_create_verbs_ne hVne]
      exact core _
    | some c =>
      by_cases hc : c.isEmpty
      · simp only [add_word_pipeline, if_true, hc]
        rw [getRows_create_verbs_ne hVne]
        exact core _
      · simp only [add_word_pipeline, if_true, hc, Bool.false_eq_true, if_false]
        rw [getRows_update_addverb_ne _ _ _ hVne, getRows_create_verbs_ne hVne]
        exact core _

/-- The word cell color chosen for a stored word of the shape `None <word>`
is the empty-key (no-article) brown. -/
theorem colorFor_none_prefix (x : String) :
    colorFor ("None " ++ x) = "8B4513" := by
  have hdata : ("None " ++ x).data = 'N' :: 'o' :: 'n' :: 'e' :: ' ' :: x.data := by
    rw [String.data_append]
    rw [show "None ".data = ['N', 'o', 'n', 'e', ' '] from rfl]
    rfl
  have hcont : (("None " ++ x).data.contains ' ') = true := by
    rw [hdata]
    simp [List.contains_cons]
  have htake : ("None " ++ x).data.takeWhile (fun c => !(c == ' ')) =
      ['N', 'o', 'n', 'e'] := by
    rw [hdata]
    simp [List.takeWhile_cons]
  rw [colorFor, checkedArticle, if_pos hcont, htake]
  decide

/-- Counterexample to claim C5: after two verb adds, the Verbs collection
holds its rows in insertion order `laufen, arbeiten`, which is not sorted
by the article-stripped lowercase key — the Verbs sheet is never re-sorted. -/
theorem verbs_collection_not_sorted :
    (getRows "Verbs"
      (add_word_to_excel "arbeiten" "" "to work" 3 true (some [("ich", "arbeite")])
        (add_word_to_excel "laufen" "" "to run" 3 true (some [("ich", "laufe")])
          freshWorkbook).wb).wb).map Row.word = ["laufen", "arbeiten"] ∧
    ¬ List.Sorted rowLe (getRows "Verbs"
      (add_word_to_excel "arbeiten" "" "to work" 3 true (some [("ich", "arbeite")])
        (add_word_to_excel "laufen" "" "to run" 3 true (some [("ich", "laufe")])
          freshWorkbook).wb).wb) := by decide

/-- Claim C5 (amended): after every add — verb or not — every collection
appended to via `add_word_to_sheet` is sorted by the word ignoring a
leading article token, case-insensitively: the lesson collection after any
add, and General and the article-named collection after a non-verb add,
with the header untouched by the sort; the sample collection
`die Katze, der Hund, das Auto` sorts to `das Auto, der Hund, die Katze`;
but the Verbs collection is never re-sorted: appending a verb row leaves
all rows in insertion order (only recolored). -/
theorem add_word_sorting (word article definition : String) (lesson : Int)
    (is_verb : Bool) (conjFetch : Option (List (String × String))) (wb : Workbook)
    (h : check_duplicate (build_full_word article word) definition wb = none)
    (hGen : is_verb = false → hasSheet "General" wb = true)
    (hArt : is_verb = false → hasSheet (article_sheet_name article) wb = true) :
    List.Sorted rowLe (getRows (lesson_sheet_name lesson)
      (add_word_to_excel word article definition lesson is_verb conjFetch wb).wb) ∧
    (is_verb = false →
      List.Sorted rowLe (getRows "General"
        (add_word_to_excel word article definition lesson is_verb conjFetch wb).wb) ∧
      List.Sorted rowLe (getRows (article_sheet_name article)
        (add_word_to_excel word article definition lesson is_verb conjFetch wb).wb)) ∧
    (sort_and_color_sheet ⟨"General", ["Word", "Definition"],
        [⟨"die Katze", "cat", [], none⟩, ⟨"der Hund", "dog", [], none⟩,
         ⟨"das Auto", "car", [], none⟩]⟩).rows.map Row.word =
      ["das Auto", "der Hund", "die Katze"] ∧
    (∀ s : Sheet, (sort_and_color_sheet s).header = s.header) ∧
    (∀ (s : Sheet) (v d : String) (c : List (String × String)),
      (add_verb_to_sheet s v d c).rows = (s.rows ++ [verbRow v d c]).map verbColorRow) := by
  rw [add_word_to_excel_not_dup h]
  refine ⟨?_, ?_, by decide, fun s => rfl, fun s v d c => rfl⟩
  · obtain ⟨s, hs⟩ :=
      getRows_lesson_pipeline_eq word article definition lesson is_verb conjFetch wb
    rw [hs]
    exact sorted_add_word_to_sheet s _ _
  · intro hv
    subst hv
    constructor
    · obtain ⟨s, hs⟩ := getRows_general_pipeline_eq word article definition lesson
        conjFetch wb (hGen rfl)
      rw [hs]
      exact sorted_add_word_to_sheet s _ _
    · obtain ⟨s, hs⟩ := getRows_article_pipeline_eq word article definition lesson
        conjFetch wb (hArt rfl)
      rw [hs]
      exact sorted_add_word_to_sheet s _ _

/-- Witness for C5 (amended) at the noun `katze` (genus `f`), lesson 1, on a
fresh workbook. -/
theorem add_word_sorting_witness :
    List.Sorted rowLe (getRows (lesson_sheet_name 1)
      (add_word_to_excel "katze" "f" "cat" 1 false none freshWorkbook).wb) ∧
    ((false : Bool) = false →
      List.Sorted rowLe (getRows "General"
        (add_word_to_excel "katze" "f" "cat" 1 false none freshWorkbook).wb) ∧
      List.Sorted rowLe (getRows (article_sheet_name "f")
        (add_word_to_excel "katze" "f" "cat" 1 false none freshWorkbook).wb)) ∧
    (sort_and_color_sheet ⟨"General", ["Word", "Definition"],
        [⟨"die Katze", "cat", [], none⟩, ⟨"der Hund", "dog", [], none⟩,
         ⟨"das Auto", "car", [], none⟩]⟩).rows.map Row.word =
      ["das Auto", "der Hund", "die Katze"] ∧
    (∀ s : Sheet, (sort_and_color_sheet s).header = s.header) ∧
    (∀ (s : Sheet) (v d : String) (c : List (String × String)),
      (add_verb_to_sheet s v d c).rows = (s.rows ++ [verbRow v d c]).map verbColorRow) :=
  add_word_sorting "katze" "f" "cat" 1 false none freshWorkbook
    (by decide) (by decide) (by decide)

/-- Claim C9: an article value outside the closed conversion set routes the
(non-verb) entry to the `No Article` collection, and its word cell is
colored with the empty-key (no-article) color. -/
theorem malformed_article_routing (word article definition : String)
    (lesson : Int) (wb : Workbook)
    (hu : ARTICLE_CONV article = none)
    (h : check_duplicate (build_full_word article word) definition wb = none)
    (hGen : hasSheet "General" wb = true)
    (hNA : hasSheet "No Article" wb = true)
    (hlow : noWS (pyLower word) = true) (hne : word ≠ "") :
    article_sheet_name article = "No Article" ∧
    ∃ r ∈ getRows "No Article"
        (add_word_to_excel word article definition lesson false none wb).wb,
      r.word = build_full_word article word ∧ r.defn = definition ∧
      r.color = some "8B4513" := by
  have hasn : article_sheet_name article = "No Article" := by
    rw [article_sheet_name, hu]
    rfl
  refine ⟨hasn, ?_⟩
  rw [add_word_to_excel_not_dup h]
  have hArt : hasSheet (article_sheet_name article) wb = true := by
    rw [hasn]
    exact hNA
  obtain ⟨r, hr, hw, hd, hcol⟩ :=
    article_row_mem_pipeline word article definition lesson none wb hArt
  rw [hasn] at hr
  refine ⟨r, hr, hw, hd, ?_⟩
  rw [hcol, build_full_word_unknown hu hlow hne, colorFor_none_prefix]

/-- Witness for C9 at genus tag `pl`, word `leute`, on a fresh workbook. -/
theorem malformed_article_routing_witness :
    article_sheet_name "pl" = "No Article" ∧
    ∃ r ∈ getRows "No Article"
        (add_word_to_excel "leute" "pl" "people" 1 false none freshWorkbook).wb,
      r.word = build_full_word "pl" "leute" ∧ r.defn = "people" ∧
      r.color = some "8B4513" :=
  malformed_article_routing "leute" "pl" "people" 1 freshWorkbook
    (by decide) (by decide) (by decide) (by decide) (by decide) (by decide)
